import Mathlib

/-!
Shallow embedding of the LLM-integration subsystem of the `peakmon`
terminal dashboard (Rust), together with proofs of the specification
claims about it.

Source files embedded here:
  * `src/metrics/history.rs` — the bounded history buffer (`History`);
  * `src/metrics/ai.rs`      — the AI orchestrator (`AiMetrics`): pull
    worker line protocol, chat worker terminal-line metrics, consumer-side
    chat drain (`poll_chat`), model deletion / API refresh, search query
    percent-encoding and search-results HTML parser.

Modelling conventions:
  * Rust `f64` values that the claims reason about are modelled as `Rat`
    (exact rational arithmetic).  Where a division by zero can occur the
    `Rat` convention `x / 0 = 0` is noted at the definition; the claims
    settled here never depend on the particular junk value.
  * Byte strings handled byte-wise in the source (`&[u8]`, UTF-8 bytes of
    `&str`) are modelled as `List Nat`; all needles the source searches
    for are ASCII, so byte-level and char-level processing agree.
  * Network I/O is factored out: a worker is modelled as a pure function
    from the sequence of (already received, already line-split) wire lines
    to the sequence of messages it sends on its channel, and the REST
    poller as a function from the per-call response outcomes to the state
    update it performs.  `Option` encodes "the call succeeded and the body
    parsed" (`some`) versus any failure (`none`), exactly the
    `if let Ok(..)` nesting in the source.
-/

namespace Peakmon

/-! ## Bounded history buffer (`src/metrics/history.rs`) -/

/-- `DEFAULT_CAPACITY` from `history.rs`: 300 samples. -/
def DEFAULT_CAPACITY : Nat := 300

/-- `History`: a fixed-capacity double-ended queue of numeric samples.
`VecDeque<f64>` is modelled as a `List Rat` (front = oldest). -/
structure History where
  data : List Rat
  capacity : Nat
deriving DecidableEq

/-- `History::new()`. -/
def History.new : History := { data := [], capacity := DEFAULT_CAPACITY }

/-- `History::push`: evict the oldest element (`pop_front`) when at
capacity, then append (`push_back`). -/
def History.push (h : History) (value : Rat) : History :=
  { h with data :=
      (if h.capacity ≤ h.data.length then h.data.tail else h.data) ++ [value] }

/-- `History::max`: fold of `f64::max` with initial value `0.0`. -/
def History.max (h : History) : Rat :=
  h.data.foldl (fun a b => Max.max a b) 0

/-- Push a whole list of samples in order (iterated `History::push`). -/
def History.pushAll (h : History) (vs : List Rat) : History :=
  vs.foldl History.push h

/-! ## Pull worker line protocol (`start_pull`, `ai.rs` lines 547–624) -/

/-- `PullStatus` (`ai.rs`): the messages the pull worker sends. -/
inductive PullStatus where
  | Progress (status : String) (percent : Option Rat)
  | Done
  | Error (msg : String)
deriving DecidableEq

/-- `PullProgressLine` (`ai.rs`): one parsed newline-delimited JSON
progress object. -/
structure PullProgressLine where
  status : Option String
  total : Option Nat
  completed : Option Nat
  error : Option String
deriving DecidableEq

/-- Does `pat` occur at the start of `l`?  (Byte-for-byte prefix test.) -/
def startsChars : List Char → List Char → Bool
  | [], _ => true
  | _ :: _, [] => false
  | a :: as, b :: bs => a == b && startsChars as bs

/-- Helper for `strContains`: does `pat` occur contiguously in `l`? -/
def containsChars (pat : List Char) : List Char → Bool
  | [] => pat == []
  | c :: t => startsChars pat (c :: t) || containsChars pat t

/-- Rust `str::contains(&str)`: substring test. -/
def strContains (s pat : String) : Bool :=
  containsChars pat.data s.data

/-- The percent computation of `start_pull`:
`Some(completed / total * 100)` exactly when both counts are present and
`total > 0`. -/
def pullPercent (total completed : Option Nat) : Option Rat :=
  match total, completed with
  | some t, some c => if 0 < t then some ((c : Rat) / (t : Rat) * 100) else none
  | _, _ => none

/-- The error message `start_pull` emits when the stream ends without any
parsed progress line. -/
def pullNoResponseMsg : String :=
  "No response from Ollama — is the model name valid?"

/-- The line loop of `start_pull` (`ai.rs` 563–602) as a function from
the received lines to the messages sent on the channel.  A list element
`none` stands for a line that is blank or fails to parse as
`PullProgressLine` (both are skipped by the source); `got_any_status`
threads the source's mutable flag. -/
def startPullEvents : List (Option PullProgressLine) → Bool → List PullStatus
  | [], got_any_status =>
    if got_any_status then [.Done] else [.Error pullNoResponseMsg]
  | none :: rest, got_any_status => startPullEvents rest got_any_status
  | some progress :: rest, _ =>
    match progress.error with
    | some err => [.Error err]
    | none =>
      if strContains (progress.status.getD "") "success" then [.Done]
      else
        .Progress (progress.status.getD "")
            (pullPercent progress.total progress.completed)
          :: startPullEvents rest true

/-- `start_pull`'s worker body on a given stream of lines: the flag starts
out `false`. -/
def start_pull (lines : List (Option PullProgressLine)) : List PullStatus :=
  startPullEvents lines false

/-- The pull-worker contract exactly as §4.3 of the spec words it, as an
inductive emission relation (spec-side formalisation, to be compared with
the source-side function `start_pull`).  `observed` records whether at
least one status line has been observed so far. -/
inductive PullEmits : List (Option PullProgressLine) → Bool → List PullStatus → Prop where
  | endDone :
      PullEmits [] true [.Done]
  | endError :
      PullEmits [] false [.Error pullNoResponseMsg]
  | skipUnparseable {rest observed out} :
      PullEmits rest observed out →
      PullEmits (none :: rest) observed out
  | errorField {p : PullProgressLine} {rest observed e} :
      p.error = some e →
      PullEmits (some p :: rest) observed [.Error e]
  | successStatus {p : PullProgressLine} {rest observed} :
      p.error = none →
      strContains (p.status.getD "") "success" = true →
      PullEmits (some p :: rest) observed [.Done]
  | progressLine {p : PullProgressLine} {rest observed out} :
      p.error = none →
      strContains (p.status.getD "") "success" = false →
      PullEmits rest true out →
      PullEmits (some p :: rest) observed
        (.Progress (p.status.getD "") (pullPercent p.total p.completed) :: out)

/-- A sample progress line as in §8 of the spec:
`{"status":"downloading","total":100,"completed":25}`. -/
def pullLineDownloading : PullProgressLine :=
  { status := some "downloading", total := some 100, completed := some 25,
    error := none }

/-- `{"status":"success"}`. -/
def pullLineSuccess : PullProgressLine :=
  { status := some "success", total := none, completed := none, error := none }

/-- `{"error":"model not found"}`. -/
def pullLineError : PullProgressLine :=
  { status := none, total := none, completed := none,
    error := some "model not found" }

/-! ## Chat types (`ai.rs` lines 141–191) -/

/-- `ChatMessage`: one transcript entry. -/
structure ChatMessage where
  role : String
  content : String
deriving DecidableEq

/-- `ChatStatus`. -/
inductive ChatStatus where
  | Idle
  | Generating
  | Done
  | Error (msg : String)
deriving DecidableEq

/-- `ChatMetrics` — `f64` fields as `Rat`, token counts as `Nat`. -/
structure ChatMetrics where
  tokens_per_sec : Rat
  ttft_ms : Rat
  prompt_tokens : Nat
  gen_tokens : Nat
  total_duration_ms : Rat
  load_duration_ms : Rat
deriving DecidableEq

/-- `ChatToken`: the messages the chat worker sends on its channel. -/
inductive ChatToken where
  | Token (text : String)
  | FirstToken (text : String) (ttft : Rat)
  | Done (metrics : ChatMetrics)
  | Error (msg : String)
deriving DecidableEq

/-- `ChatResponseMessage`: `{content?: string}`. -/
structure ChatResponseMessage where
  content : Option String
deriving DecidableEq

/-- `ChatResponseLine`: one parsed newline-delimited JSON chat delta. -/
structure ChatResponseLine where
  message : Option ChatResponseMessage
  done : Option Bool
  eval_count : Option Nat
  eval_duration : Option Nat
  prompt_eval_count : Option Nat
  total_duration : Option Nat
  load_duration : Option Nat
deriving DecidableEq

/-! ## Chat worker terminal line (`start_chat`, `ai.rs` lines 783–807) -/

/-- The `let eval_duration = parsed.eval_duration.unwrap_or(1)` binding of
the `done` branch: a missing duration defaults to 1 ns; note that a
*present* `Some(0)` stays 0. -/
def chatEvalDurationUsed (parsed : ChatResponseLine) : Nat :=
  parsed.eval_duration.getD 1

/-- The metrics built by the `done` branch of `start_chat`'s line loop.
`first_token` is the worker's flag (still true iff no non-empty delta was
seen); `elapsed_ms` is the wall time since the request started, supplied
as an oracle input.  In `Rat`, `x / 0 = 0`; the source's `f64` division
by zero yields `inf`/`NaN` — the claims proved here only use that the
zero divisor is *not* replaced by 1. -/
def chatDoneMetrics (parsed : ChatResponseLine) (first_token : Bool)
    (elapsed_ms : Rat) : ChatMetrics :=
  let eval_count := parsed.eval_count.getD 0
  let eval_duration := chatEvalDurationUsed parsed
  let tps := (eval_count : Rat) / (eval_duration : Rat) * 1000000000
  let total_dur := ((parsed.total_duration.getD 0 : Nat) : Rat) / 1000000
  let load_dur := ((parsed.load_duration.getD 0 : Nat) : Rat) / 1000000
  let ttft := if first_token then elapsed_ms else 0
  { tokens_per_sec := tps
    ttft_ms := ttft
    prompt_tokens := parsed.prompt_eval_count.getD 0
    gen_tokens := eval_count
    total_duration_ms := total_dur
    load_duration_ms := load_dur }

/-! ## Orchestrator chat state and consumer-side drain
(`poll_chat`, `ai.rs` lines 838–912) -/

/-- The chat-related state the orchestrator owns.  `last_tps`
(`HashMap<String, f64>`) is modelled as an association list;
`chat_receiver_active` models `chat_receiver.is_some()`. -/
structure ChatState where
  chat_messages : List ChatMessage
  chat_status : ChatStatus
  chat_metrics : Option ChatMetrics
  chat_model : Option String
  tps_history : History
  last_tps : List (String × Rat)
  chat_receiver_active : Bool
deriving DecidableEq

/-- `HashMap::insert` on the association-list model: overwrite any
existing binding for the key. -/
def insertTps (m : List (String × Rat)) (k : String) (v : Rat) :
    List (String × Rat) :=
  (k, v) :: m.filter (fun p => p.1 != k)

/-- `chat_messages.last_mut()` + push onto `content` if the last entry's
role is `"assistant"` — the shared body of the `Token` and `FirstToken`
drain arms.  Any other shape of transcript is left unchanged. -/
def appendAssistant : List ChatMessage → String → List ChatMessage
  | [], _ => []
  | [m], text =>
    if m.role = "assistant" then [{ m with content := m.content ++ text }]
    else [m]
  | m :: m₂ :: rest, text => m :: appendAssistant (m₂ :: rest) text

/-- The `Ok(ChatToken::Token(text))` arm of `poll_chat`. -/
def tokenStep (s : ChatState) (text : String) : ChatState :=
  { s with chat_messages := appendAssistant s.chat_messages text }

/-- The `Ok(ChatToken::FirstToken(text, ttft))` arm of `poll_chat`:
append like a token, then store the preliminary TTFT. -/
def firstTokenStep (s : ChatState) (text : String) (ttft : Rat) : ChatState :=
  { s with
    chat_messages := appendAssistant s.chat_messages text
    chat_metrics :=
      match s.chat_metrics with
      | some m => some { m with ttft_ms := ttft }
      | none =>
        some { tokens_per_sec := 0, ttft_ms := ttft, prompt_tokens := 0,
               gen_tokens := 0, total_duration_ms := 0, load_duration_ms := 0 } }

/-- The `Ok(ChatToken::Done(metrics))` arm of `poll_chat`: preserve the
TTFT captured from `FirstToken` when the terminal metrics carry the zero
default, record tokens/sec, mark the chat done and drop the receiver. -/
def doneStep (s : ChatState) (metrics : ChatMetrics) : ChatState :=
  let ttft :=
    if metrics.ttft_ms = 0 then (s.chat_metrics.map (·.ttft_ms)).getD 0
    else metrics.ttft_ms
  let final_metrics := { metrics with ttft_ms := ttft }
  { s with
    last_tps :=
      match s.chat_model with
      | some model => insertTps s.last_tps model final_metrics.tokens_per_sec
      | none => s.last_tps
    tps_history := s.tps_history.push final_metrics.tokens_per_sec
    chat_metrics := some final_metrics
    chat_status := .Done
    chat_receiver_active := false }

/-- The `Ok(ChatToken::Error(err))` arm of `poll_chat`. -/
def errorStep (s : ChatState) (err : String) : ChatState :=
  { s with chat_status := .Error err, chat_receiver_active := false }

/-- The `Err(TryRecvError::Disconnected)` arm of `poll_chat`. -/
def disconnectedStep (s : ChatState) : ChatState :=
  { s with
    chat_status :=
      if s.chat_status = .Generating then .Done else s.chat_status
    chat_receiver_active := false }

/-- The drain loop of `poll_chat` over the messages currently queued on
the channel.  `disconnected` tells whether, once the queue is exhausted,
`try_recv` reports `Disconnected` (sender dropped) rather than `Empty`.
A terminal `Done`/`Error` message stops the drain (the source `return`s,
dropping the receiver, so later messages are never seen). -/
def pollChatGo (disconnected : Bool) : ChatState → List ChatToken → ChatState
  | s, [] => if disconnected then disconnectedStep s else s
  | s, msg :: rest =>
    match msg with
    | .Token text => pollChatGo disconnected (tokenStep s text) rest
    | .FirstToken text ttft =>
      pollChatGo disconnected (firstTokenStep s text ttft) rest
    | .Done metrics => doneStep s metrics
    | .Error err => errorStep s err

/-- `poll_chat`: an early return when no receiver is held, otherwise the
drain loop. -/
def poll_chat (s : ChatState) (msgs : List ChatToken) (disconnected : Bool) :
    ChatState :=
  if s.chat_receiver_active then pollChatGo disconnected s msgs else s

/-- No `Done` or `Error` message occurs in the queue. -/
def noTerminal : List ChatToken → Bool
  | [] => true
  | .Done _ :: _ => false
  | .Error _ :: _ => false
  | .Token _ :: rest => noTerminal rest
  | .FirstToken _ _ :: rest => noTerminal rest

/-- A terminal chat line carrying a *present* zero `eval_duration`
(`{"done":true,"eval_count":50,"eval_duration":0}`). -/
def chatLineZeroDuration : ChatResponseLine :=
  { message := none, done := some true, eval_count := some 50,
    eval_duration := some 0, prompt_eval_count := none,
    total_duration := none, load_duration := none }

/-- The §8 example terminal line:
`eval_count = 50`, `eval_duration = 2_000_000_000` ns. -/
def chatLineExample : ChatResponseLine :=
  { message := none, done := some true, eval_count := some 50,
    eval_duration := some 2000000000, prompt_eval_count := none,
    total_duration := none, load_duration := none }

/-- A concrete orchestrator chat state mid-generation: a user entry
followed by the empty assistant placeholder, worker in flight. -/
def chatStateA : ChatState :=
  { chat_messages := [{ role := "user", content := "hi" },
                      { role := "assistant", content := "" }]
    chat_status := .Generating
    chat_metrics := none
    chat_model := some "llama3"
    tps_history := History.new
    last_tps := []
    chat_receiver_active := true }

/-- Terminal metrics whose TTFT field carries the zero default. -/
def doneMetricsZeroTtft : ChatMetrics :=
  { tokens_per_sec := 25, ttft_ms := 0, prompt_tokens := 10, gen_tokens := 50,
    total_duration_ms := 100, load_duration_ms := 5 }

/-! ## Model registries and the cached REST poller
(`refresh_ollama_api` / `delete_model`, `ai.rs` lines 501–534 and 627–646) -/

/-- `OllamaModelDetails`. -/
structure OllamaModelDetails where
  quantization_level : Option String
deriving DecidableEq

/-- `OllamaModel` (installed-model registry entry). -/
structure OllamaModel where
  name : String
  size : Nat
  details : Option OllamaModelDetails
deriving DecidableEq

/-- `OllamaRunningModel` (running-model registry entry). -/
structure OllamaRunningModel where
  name : String
  size_vram : Nat
deriving DecidableEq

/-- The registry/poller slice of `AiMetrics`.  `last_api_check` is the
cached poll timestamp (an `Instant`, modelled as `Option Nat`). -/
structure AiState where
  ollama_available : Bool
  ollama_version : Option String
  ollama_models : List OllamaModel
  ollama_running : List OllamaRunningModel
  model_selected : Nat
  last_api_check : Option Nat
deriving DecidableEq

/-- The outcome of the three GET calls one `refresh_ollama_api` run makes.
`none` = the call failed at any layer (network error, timeout, non-2xx,
or a body that does not parse) — the source's `if let Ok(..)` nesting;
`some` = success with the parsed body.  For tags/ps the inner
`Option (List _)` is the body's nullable `models` array. -/
structure ApiResponses where
  version : Option String
  tags : Option (Option (List OllamaModel))
  ps : Option (Option (List OllamaRunningModel))

/-- The three request URLs (issued in this order). -/
def apiUrls : List String :=
  ["http://localhost:11434/api/version",
   "http://localhost:11434/api/tags",
   "http://localhost:11434/api/ps"]

/-- `refresh_ollama_api` as a state transformer over the call outcomes,
also returning the list of GET requests it issued.  When the service is
not detected it clears both registries and unsets the version without
issuing any request; otherwise every call is attempted and each piece of
state is replaced only when its own call produced a parsed body
(`unwrap_or_default` on the nullable `models` array). -/
def refresh_ollama_api (s : AiState) (r : ApiResponses) :
    AiState × List String :=
  if s.ollama_available = false then
    ({ s with ollama_models := [], ollama_running := [],
              ollama_version := none }, [])
  else
    let s1 :=
      match r.version with
      | some v => { s with ollama_version := some v }
      | none => s
    let s2 :=
      match r.tags with
      | some models => { s1 with ollama_models := models.getD [] }
      | none => s1
    let s3 :=
      match r.ps with
      | some models => { s2 with ollama_running := models.getD [] }
      | none => s2
    (s3, apiUrls)

/-- `delete_model`: optimistically drop the model from the local registry,
clamp the selection cursor, and force the next poll to bypass its cache.
(The fire-and-forget DELETE request has no effect on this state.) -/
def delete_model (s : AiState) (model_name : String) : AiState :=
  let models := s.ollama_models.filter (fun m => m.name != model_name)
  let selected :=
    if 0 < s.model_selected ∧ models.length ≤ s.model_selected then
      models.length - 1
    else s.model_selected
  { s with ollama_models := models, model_selected := selected,
           last_api_check := none }

/-- A concrete registry state: two installed models, cursor on the
second. -/
def aiStateTwoModels : AiState :=
  { ollama_available := true
    ollama_version := some "0.5.0"
    ollama_models := [{ name := "llama3", size := 4000, details := none },
                      { name := "phi3", size := 2000, details := none }]
    ollama_running := []
    model_selected := 1
    last_api_check := some 0 }

/-- Call outcomes in which only the tags call succeeds, returning an
empty model list (e.g. every model was removed externally). -/
def apiRespEmptyTags : ApiResponses :=
  { version := none, tags := some (some []), ps := none }

/-! ## Search query percent-encoding (`start_search`, `ai.rs` lines 944–953) -/

/-- The UTF-8 bytes of a string (`str::bytes()`).  Every string this
development feeds through it is ASCII, where the UTF-8 bytes are exactly
the code points. -/
def strBytes (s : String) : List Nat :=
  s.data.map Char.toNat

/-- An uppercase hexadecimal digit, as produced by `format!("{:02X}")`. -/
def hexDigitU (n : Nat) : Char :=
  if n < 10 then Char.ofNat (48 + n) else Char.ofNat (55 + n)

/-- Spec-side predicate: is `c` one of the sixteen digits of two-digit
uppercase hex (`0`–`9`, `A`–`F`)? -/
def isUpperHexDigit (c : Char) : Bool :=
  (48 ≤ c.toNat && c.toNat ≤ 57) || (65 ≤ c.toNat && c.toNat ≤ 70)

/-- Spec-side numeric value of an uppercase hex digit. -/
def hexVal (c : Char) : Nat :=
  if c.toNat ≤ 57 then c.toNat - 48 else c.toNat - 55

/-- The per-byte encoder of `start_search`'s query encoding: ASCII
alphanumerics and `-` `_` `.` pass through, a space becomes `+`, every
other byte becomes `%` followed by its two-digit uppercase hex
(`format!("%{b:02X}")`). -/
def encodeByte (b : Nat) : String :=
  if (65 ≤ b ∧ b ≤ 90) ∨ (97 ≤ b ∧ b ≤ 122) ∨ (48 ≤ b ∧ b ≤ 57)
     ∨ b = 45 ∨ b = 95 ∨ b = 46 then
    String.singleton (Char.ofNat b)
  else if b = 32 then "+"
  else String.mk ['%', hexDigitU (b / 16), hexDigitU (b % 16)]

/-- The whole query encoding: per-byte encoding collected into one
string. -/
def encodeQuery (bytes : List Nat) : String :=
  String.join (bytes.map encodeByte)

/-! ## Search results HTML parser (`parse_search_html`, `ai.rs`
lines 207–349) -/

/-- `SearchResult` — the textual fields are kept as the UTF-8 byte lists
the byte-level parser slices out. -/
structure SearchResult where
  name : List Nat
  description : List Nat
  sizes : List (List Nat)
  pulls : List Nat
deriving DecidableEq

/-- First index at which `needle` occurs in `haystack`
(`slice::windows(n).position(..)`: no window fits once the remaining
slice is shorter than the needle). -/
def windowsPosition (needle : List Nat) : List Nat → Option Nat
  | [] =>
    if ([] : List Nat).length < needle.length then none
    else if (([] : List Nat).take needle.length == needle) then some 0
    else none
  | c :: t =>
    if (c :: t).length < needle.length then none
    else if ((c :: t).take needle.length == needle) then some 0
    else (windowsPosition needle t).map (· + 1)

/-- `find_bytes` (`ai.rs` 310–318): first occurrence of `needle` in
`haystack` at or after `start`. -/
def find_bytes (haystack needle : List Nat) (start : Nat) : Option Nat :=
  if needle = [] ∨ haystack.length < start + needle.length then none
  else (windowsPosition needle (haystack.drop start)).map (· + start)

/-- `find_byte` (`ai.rs` 320–325): first occurrence of the byte `needle`
at or after `start`. -/
def find_byte (haystack : List Nat) (needle : Nat) (start : Nat) :
    Option Nat :=
  ((haystack.drop start).findIdx? (· == needle)).map (· + start)

/-- `strip_html_tags` (`ai.rs` 327–340), byte level; the tag delimiters
`<`/`>` are ASCII, so byte-level and char-level stripping agree on valid
UTF-8. -/
def stripTagsGo : Bool → List Nat → List Nat
  | _, [] => []
  | in_tag, c :: t =>
    if c = 60 then stripTagsGo true t
    else if c = 62 then stripTagsGo false t
    else if in_tag then stripTagsGo in_tag t
    else c :: stripTagsGo in_tag t

/-- Does `pat` occur at the start of the second list? -/
def startsBytes : List Nat → List Nat → Bool
  | [], _ => true
  | _ :: _, [] => false
  | a :: as, b :: bs => a == b && startsBytes as bs

/-- One pass of `str::replace`: replace every non-overlapping occurrence
of `pat` by `rep`, scanning left to right.  `fuel` bounds the scan; each
step consumes at least one element, so `l.length` steps always
suffice. -/
def replaceFrom (pat rep : List Nat) : Nat → List Nat → List Nat
  | 0, l => l
  | fuel + 1, l =>
    match l with
    | [] => []
    | c :: t =>
      if startsBytes pat l then rep ++ replaceFrom pat rep fuel (l.drop pat.length)
      else c :: replaceFrom pat rep fuel t

/-- `str::replace(pat, rep)` over byte lists. -/
def listReplace (l pat rep : List Nat) : List Nat :=
  replaceFrom pat rep l.length l

/-- `decode_html_entities` (`ai.rs` 342–349): the six entity replacements
in source order.  (`&#39;` and `&#x27;` decode to an apostrophe, byte 39;
`&quot;` to a double quote, byte 34.) -/
def decodeEntities (s : List Nat) : List Nat :=
  let s1 := listReplace s (strBytes "&#39;") [39]
  let s2 := listReplace s1 (strBytes "&#x27;") [39]
  let s3 := listReplace s2 (strBytes "&amp;") [38]
  let s4 := listReplace s3 (strBytes "&lt;") [60]
  let s5 := listReplace s4 (strBytes "&gt;") [62]
  listReplace s5 (strBytes "&quot;") [34]

/-- Is `b` an ASCII whitespace byte?  (Models `str::trim`; the source
trims Unicode whitespace, of which only the ASCII bytes can occur in the
byte-level slices taken here.) -/
def isWsByte (b : Nat) : Bool :=
  b = 32 || b = 9 || b = 10 || b = 11 || b = 12 || b = 13

/-- `str::trim` over byte lists. -/
def trimB (s : List Nat) : List Nat :=
  ((s.dropWhile isWsByte).reverse.dropWhile isWsByte).reverse

/-- The needles of `parse_search_html`. -/
def liNeedleB : List Nat := strBytes "x-test-model"

/-- `href="/library/`. -/
def hrefNeedleB : List Nat := strBytes "href=\"/library/"

/-- `max-w-lg`. -/
def descNeedleB : List Nat := strBytes "max-w-lg"

/-- `</p>`. -/
def pEndNeedleB : List Nat := strBytes "</p>"

/-- `x-test-size`. -/
def sizeNeedleB : List Nat := strBytes "x-test-size"

/-- `</span>`. -/
def spanEndNeedleB : List Nat := strBytes "</span>"

/-- `x-test-pull-count`. -/
def pullNeedleB : List Nat := strBytes "x-test-pull-count"

/-- Description extraction (`ai.rs` 247–261): the paragraph after the
`max-w-lg` marker, tags stripped, trimmed, entities decoded; empty on any
miss. -/
def extractDesc (block : List Nat) : List Nat :=
  match find_bytes block descNeedleB 0 with
  | none => []
  | some desc_start =>
    match find_byte block 62 desc_start with
    | none => []
    | some gt =>
      match find_bytes block pEndNeedleB (gt + 1) with
      | none => []
      | some p_end =>
        decodeEntities (trimB (stripTagsGo false
          ((block.drop (gt + 1)).take (p_end - (gt + 1)))))

/-- Size-tag extraction loop (`ai.rs` 263–281).  `spos` strictly
increases every iteration (`s_end ≥ gt + 1 > s_start ≥ spos`), so
`block.length + 1` fuel always suffices. -/
def extractSizes (block : List Nat) : Nat → Nat → List (List Nat) →
    List (List Nat)
  | 0, _, sizes => sizes
  | fuel + 1, spos, sizes =>
    match find_bytes block sizeNeedleB spos with
    | none => sizes
    | some s_start =>
      match find_byte block 62 s_start with
      | none => sizes
      | some gt =>
        match find_bytes block spanEndNeedleB (gt + 1) with
        | none => sizes
        | some s_end =>
          let size_text := trimB ((block.drop (gt + 1)).take (s_end - (gt + 1)))
          extractSizes block fuel s_end
            (if size_text = [] then sizes else sizes ++ [size_text])

/-- Pull-count extraction (`ai.rs` 283–297). -/
def extractPulls (block : List Nat) : List Nat :=
  match find_bytes block pullNeedleB 0 with
  | none => []
  | some p_start =>
    match find_byte block 62 p_start with
    | none => []
    | some gt =>
      match find_bytes block spanEndNeedleB (gt + 1) with
      | none => []
      | some p_end =>
        trimB ((block.drop (gt + 1)).take (p_end - (gt + 1)))

/-- The name extraction of a card (`ai.rs` 228–236): the text between
`href="/library/` and the closing quote; `none` when either needle is
missing (the source's `continue`s). -/
def extractName (block : List Nat) : Option (List Nat) :=
  match find_bytes block hrefNeedleB 0 with
  | none => none
  | some href_start =>
    match find_byte block 34 (href_start + hrefNeedleB.length) with
    | none => none
    | some quote_end =>
      some ((block.drop (href_start + hrefNeedleB.length)).take
        (quote_end - (href_start + hrefNeedleB.length)))

/-- Per-card extraction (`ai.rs` 228–304): name from the
`href="/library/<name>"` anchor, skipped when the name contains a slash,
is empty, or duplicates an earlier result; otherwise the card's fields
are assembled. -/
def extractCard (block : List Nat) (results : List SearchResult) :
    Option SearchResult :=
  match extractName block with
  | none => none
  | some name =>
    if name.contains 47 || name.isEmpty then none
    else if results.any (fun r => r.name == name) then none
    else
      some { name := name
             description := extractDesc block
             sizes := extractSizes block (block.length + 1) 0 []
             pulls := extractPulls block }

/-- The `block_end` binding of the card loop: the start of the next
`x-test-model` needle, or the end of the page. -/
def parseBlockEnd (bytes : List Nat) (li_start : Nat) : Nat :=
  (find_bytes bytes liNeedleB (li_start + liNeedleB.length)).getD bytes.length

/-- The `block` binding of the card loop: `&html[li_start..block_end]`. -/
def parseBlock (bytes : List Nat) (li_start : Nat) : List Nat :=
  (bytes.drop li_start).take (parseBlockEnd bytes li_start - li_start)

/-- The card loop of `parse_search_html` (`ai.rs` 216–305).  Each
iteration advances `pos` to `block_end > pos`, and `pos ≤ bytes.length`
throughout, so `bytes.length + 1` fuel always suffices. -/
def parseLoop (bytes : List Nat) : Nat → Nat → List SearchResult →
    List SearchResult
  | 0, _, results => results
  | fuel + 1, pos, results =>
    if pos < bytes.length then
      match find_bytes bytes liNeedleB pos with
      | none => results
      | some li_start =>
        match extractCard (parseBlock bytes li_start) results with
        | none => parseLoop bytes fuel (parseBlockEnd bytes li_start) results
        | some r =>
          parseLoop bytes fuel (parseBlockEnd bytes li_start) (results ++ [r])
    else results

/-- `parse_search_html` on the page's bytes. -/
def parse_search_html (bytes : List Nat) : List SearchResult :=
  parseLoop bytes (bytes.length + 1) 0 []

/-- An HTML page with two cards whose anchors are identical
(`href="/library/llama3"` twice). -/
def twoCardsHtml : String :=
  "<li x-test-model><a href=\"/library/llama3\"></a></li><li x-test-model><a href=\"/library/llama3\"></a></li>"

end Peakmon

namespace Peakmon

/-! ## Theorems: history buffer -/

/-- Pushing onto a buffer that still respects its capacity: the data of
the result is the capacity-sized suffix of the total stream. -/
theorem History.pushAll_data (d : List Rat) (C : Nat) (hC : 1 ≤ C)
    (hd : d.length ≤ C) (vs : List Rat) :
    (History.pushAll { data := d, capacity := C } vs).data
      = (d ++ vs).drop ((d ++ vs).length - C) := by
  induction vs generalizing d with
  | nil =>
    have h0 : d.length - C = 0 := by omega
    simp [History.pushAll, h0]
  | cons v rest ih =>
    simp only [History.pushAll, List.foldl_cons] at *
    by_cases hfull : C ≤ d.length
    · have hlen : d.length = C := le_antisymm hd hfull
      cases d with
      | nil => simp at hlen; omega
      | cons h₀ tl =>
        have hpush : History.push { data := h₀ :: tl, capacity := C } v
            = { data := tl ++ [v], capacity := C } := by
          simp only [History.push, List.tail_cons]
          rw [if_pos hfull]
        rw [hpush]
        have hlen' : tl.length + 1 = C := by simpa using hlen
        have htl : (tl ++ [v]).length ≤ C := by simp; omega
        rw [ih (tl ++ [v]) htl]
        have e1 : (tl ++ [v]) ++ rest = tl ++ v :: rest := by simp
        have e2 : (h₀ :: tl) ++ v :: rest = h₀ :: (tl ++ v :: rest) := by simp
        rw [e1, e2]
        have d1 : (tl ++ v :: rest).length - C = rest.length := by simp; omega
        have d2 : (h₀ :: (tl ++ v :: rest)).length - C = rest.length + 1 := by
          simp; omega
        rw [d1, d2, List.drop_succ_cons]
    · have hpush : History.push { data := d, capacity := C } v
          = { data := d ++ [v], capacity := C } := by
        simp only [History.push]
        rw [if_neg hfull]
      rw [hpush, ih (d ++ [v]) (by simp; omega)]
      simp [List.append_assoc]

/-- C6: for the bounded history buffer with its capacity of 300, any
sequence of N pushes leaves exactly the most recent min(N, 300) values in
push order (so length = min(N, 300) and eviction is oldest-first / FIFO),
and `max()` over the empty buffer returns 0. -/
theorem history_buffer_fifo_bound :
    (∀ vs : List Rat,
        (History.new.pushAll vs).data = vs.drop (vs.length - DEFAULT_CAPACITY)
      ∧ (History.new.pushAll vs).data.length
          = Min.min vs.length DEFAULT_CAPACITY)
  ∧ History.new.max = 0 := by
  refine ⟨fun vs => ?_, rfl⟩
  have h := History.pushAll_data [] DEFAULT_CAPACITY (by decide) (by simp) vs
  simp only [List.nil_append] at h
  refine ⟨by simpa [History.new] using h, ?_⟩
  have h2 : (History.new.pushAll vs).data.length
      = (vs.drop (vs.length - DEFAULT_CAPACITY)).length := by
    rw [show History.new = { data := [], capacity := DEFAULT_CAPACITY } from rfl, h]
  rw [h2, List.length_drop]
  omega

/-! ## Theorems: pull worker -/

/-- C1: the pull worker's line loop realises the per-line contract of
§4.3 (skip unparseable lines; `error` field ⇒ `Error` and stop; percent
present iff both counts present and total > 0; status containing
"success" ⇒ `Done` and stop; otherwise `Progress{status, percent}`;
at end of stream `Done` iff at least one status line was observed, else
`Error`), and in particular the three §8 sample lines behave as stated. -/
theorem start_pull_meets_contract :
    (∀ lines, PullEmits lines false (start_pull lines))
  ∧ start_pull [some pullLineDownloading]
      = [.Progress "downloading" (some 25), .Done]
  ∧ start_pull [some pullLineSuccess] = [.Done]
  ∧ start_pull [some pullLineError] = [.Error "model not found"] := by
  have hdl : strContains "downloading" "success" = false := by decide
  have hsc : strContains "success" "success" = true := by decide
  refine ⟨fun lines => ?_, ?_, ?_, ?_⟩
  case refine_2 =>
    simp [start_pull, startPullEvents, pullLineDownloading, hdl, pullPercent]
  case refine_3 =>
    simp [start_pull, startPullEvents, pullLineSuccess, hsc]
  case refine_4 =>
    simp [start_pull, startPullEvents, pullLineError]
  suffices h : ∀ g, PullEmits lines g (startPullEvents lines g) from h false
  induction lines with
  | nil =>
    intro g
    cases g
    · exact .endError
    · exact .endDone
  | cons l rest ih =>
    intro g
    cases l with
    | none => exact .skipUnparseable (ih g)
    | some p =>
      rcases he : p.error with _ | e
      · by_cases hs : strContains (p.status.getD "") "success" = true
        · have hrw : startPullEvents (some p :: rest) g = [.Done] := by
            simp [startPullEvents, he, hs]
          rw [hrw]
          exact .successStatus he hs
        · have hs' : strContains (p.status.getD "") "success" = false := by
            simpa using hs
          have hrw : startPullEvents (some p :: rest) g
              = .Progress (p.status.getD "")
                  (pullPercent p.total p.completed) :: startPullEvents rest true := by
            simp [startPullEvents, he, hs']
          rw [hrw]
          exact .progressLine he hs' (ih true)
      · have hrw : startPullEvents (some p :: rest) g = [.Error e] := by
          simp [startPullEvents, he]
        rw [hrw]
        exact .errorField he

/-! ## Theorems: chat worker terminal metrics (C2) -/

/-- C2 counterexample: the code guards a *missing* `eval_duration`
(`unwrap_or(1)`), not a zero one.  On a terminal line whose
`eval_duration` is present and zero, the divisor used is 0 (the source's
`f64` division then yields infinity, the `Rat` model yields 0 — either
way not the `eval_count / 1ns` value the claim's guard would give). -/
theorem chat_zero_duration_not_guarded :
    chatEvalDurationUsed chatLineZeroDuration = 0
  ∧ (chatDoneMetrics chatLineZeroDuration false 0).tokens_per_sec
      ≠ ((chatLineZeroDuration.eval_count.getD 0 : Nat) : Rat) / 1
          * 1000000000 := by
  refine ⟨rfl, ?_⟩
  simp [chatDoneMetrics, chatEvalDurationUsed, chatLineZeroDuration]

/-- C2 (amended): on a terminal chat line the emitted tokens/sec is
`eval_count / eval_duration * 1e9` where only a *missing* `eval_duration`
defaults to 1 ns (a present zero is used as-is); the §8 example
(50 tokens over 2·10⁹ ns) gives exactly 25; total/load durations are
converted from nanoseconds to milliseconds by dividing by 10⁶. -/
theorem chat_tokens_per_sec (parsed : ChatResponseLine) (ft : Bool)
    (el : Rat) :
    (parsed.eval_duration = none →
       (chatDoneMetrics parsed ft el).tokens_per_sec
         = ((parsed.eval_count.getD 0 : Nat) : Rat) / 1 * 1000000000)
  ∧ (∀ d : Nat, parsed.eval_duration = some d →
       (chatDoneMetrics parsed ft el).tokens_per_sec
         = ((parsed.eval_count.getD 0 : Nat) : Rat) / (d : Rat) * 1000000000)
  ∧ (chatDoneMetrics chatLineExample ft el).tokens_per_sec = 25
  ∧ (∀ t : Nat, parsed.total_duration = some t →
       (chatDoneMetrics parsed ft el).total_duration_ms = (t : Rat) / 1000000)
  ∧ (∀ l : Nat, parsed.load_duration = some l →
       (chatDoneMetrics parsed ft el).load_duration_ms = (l : Rat) / 1000000) := by
  refine ⟨?_, ?_, ?_, ?_, ?_⟩
  · intro h
    simp [chatDoneMetrics, chatEvalDurationUsed, h]
  · intro d h
    simp [chatDoneMetrics, chatEvalDurationUsed, h]
  · simp [chatDoneMetrics, chatEvalDurationUsed, chatLineExample]
    norm_num
  · intro t h
    simp [chatDoneMetrics, h]
  · intro l h
    simp [chatDoneMetrics, h]

/-- Witness for `chat_tokens_per_sec` at the §8 example line. -/
theorem chat_tokens_per_sec_witness :
    chatLineExample.eval_duration = some 2000000000
  ∧ (chatDoneMetrics chatLineExample false 0).tokens_per_sec
      = ((chatLineExample.eval_count.getD 0 : Nat) : Rat)
          / ((2000000000 : Nat) : Rat) * 1000000000 :=
  ⟨rfl, (chat_tokens_per_sec chatLineExample false 0).2.1 2000000000 rfl⟩

/-! ## Theorems: consumer-side TTFT merge (C3) -/

/-- C3: draining a `FirstToken` carrying TTFT `ttftF ≠ 0` and then a
`Done` whose metrics carry the zero default TTFT leaves the final chat
metrics with `ttft_ms = ttftF`; a nonzero TTFT in the `Done` metrics is
kept as-is. -/
theorem ttft_merge_preserved (s : ChatState) (t : String) (ttftF : Rat)
    (m : ChatMetrics) (hrecv : s.chat_receiver_active = true) :
    (ttftF ≠ 0 → m.ttft_ms = 0 →
       (poll_chat s [.FirstToken t ttftF, .Done m] false).chat_metrics
         = some { m with ttft_ms := ttftF })
  ∧ (m.ttft_ms ≠ 0 →
       (poll_chat s [.FirstToken t ttftF, .Done m] false).chat_metrics
         = some m) := by
  have hun : poll_chat s [.FirstToken t ttftF, .Done m] false
      = doneStep (firstTokenStep s t ttftF) m := by
    simp [poll_chat, hrecv, pollChatGo]
  constructor
  · intro _ h0
    rw [hun]
    cases hm : s.chat_metrics <;>
      simp [doneStep, firstTokenStep, hm, h0]
  · intro hne
    rw [hun]
    cases hm : s.chat_metrics <;>
      simp [doneStep, firstTokenStep, hm, hne]

/-- Witness for `ttft_merge_preserved`: TTFT 120 ms from the first-token
event survives a `Done` carrying the zero default. -/
theorem ttft_merge_preserved_witness :
    (poll_chat chatStateA
        [.FirstToken "Hel" 120, .Done doneMetricsZeroTtft] false).chat_metrics
      = some { doneMetricsZeroTtft with ttft_ms := 120 } :=
  (ttft_merge_preserved chatStateA "Hel" 120 doneMetricsZeroTtft rfl).1
    (by norm_num) rfl

/-! ## Theorems: transcript mutation frame (C7) -/

/-- `appendAssistant` touches only the last entry, and only when its role
is `"assistant"`. -/
theorem appendAssistant_append (init : List ChatMessage) (last : ChatMessage)
    (t : String) :
    appendAssistant (init ++ [last]) t
      = init ++ [if last.role = "assistant"
                 then { last with content := last.content ++ t } else last] := by
  induction init with
  | nil =>
    by_cases h : last.role = "assistant" <;> simp [appendAssistant, h]
  | cons a init ih =>
    have hne : init ++ [last] ≠ [] := by simp
    cases h : init ++ [last] with
    | nil => exact absurd h hne
    | cons m₂ rest =>
      have h1 : appendAssistant ((a :: init) ++ [last]) t
          = a :: appendAssistant (m₂ :: rest) t := by
        rw [List.cons_append, h]
        simp [appendAssistant]
      rw [h1, ← h, ih, List.cons_append]

/-- C7: draining a `Token` or `FirstToken` appends the delta to the last
transcript entry exactly when that entry's role is `"assistant"`, leaving
every other entry unchanged; in every other case (non-assistant last
entry, empty transcript) the transcript is unchanged, and the `Done` and
`Error` drain arms never mutate the transcript. -/
theorem transcript_mutation_frame (s : ChatState) (t : String) (r : Rat)
    (mtr : ChatMetrics) (e : String) :
    (∀ init last, s.chat_messages = init ++ [last] →
       last.role = "assistant" →
         (tokenStep s t).chat_messages
           = init ++ [{ last with content := last.content ++ t }]
       ∧ (firstTokenStep s t r).chat_messages
           = init ++ [{ last with content := last.content ++ t }])
  ∧ (∀ init last, s.chat_messages = init ++ [last] →
       last.role ≠ "assistant" →
         (tokenStep s t).chat_messages = s.chat_messages
       ∧ (firstTokenStep s t r).chat_messages = s.chat_messages)
  ∧ (s.chat_messages = [] →
       (tokenStep s t).chat_messages = []
     ∧ (firstTokenStep s t r).chat_messages = [])
  ∧ (doneStep s mtr).chat_messages = s.chat_messages
  ∧ (errorStep s e).chat_messages = s.chat_messages := by
  refine ⟨?_, ?_, ?_, rfl, rfl⟩
  · intro init last hs hrole
    constructor <;>
      simp [tokenStep, firstTokenStep, hs, appendAssistant_append, hrole]
  · intro init last hs hrole
    constructor <;>
      simp [tokenStep, firstTokenStep, hs, appendAssistant_append, hrole]
  · intro hs
    constructor <;> simp [tokenStep, firstTokenStep, hs, appendAssistant]

/-- Witness for `transcript_mutation_frame` on the concrete state whose
last entry is the empty assistant placeholder. -/
theorem transcript_mutation_frame_witness :
    (tokenStep chatStateA "Hi").chat_messages
      = [{ role := "user", content := "hi" },
         { role := "assistant", content := "" ++ "Hi" }] :=
  ((transcript_mutation_frame chatStateA "Hi" 0 doneMetricsZeroTtft "e").1
    [{ role := "user", content := "hi" }]
    { role := "assistant", content := "" } rfl rfl).1

/-! ## Theorems: disconnected drain (C10) -/

/-- Draining with a disconnected sender and no terminal message equals
draining normally and then taking the `Disconnected` arm. -/
theorem pollChatGo_disconnect_eq (msgs : List ChatToken)
    (hnt : noTerminal msgs = true) (s : ChatState) :
    pollChatGo true s msgs = disconnectedStep (pollChatGo false s msgs) := by
  induction msgs generalizing s with
  | nil => rfl
  | cons m rest ih =>
    cases m with
    | Token t =>
      exact ih (by simpa [noTerminal] using hnt) (tokenStep s t)
    | FirstToken t ttft =>
      exact ih (by simpa [noTerminal] using hnt) (firstTokenStep s t ttft)
    | Done m => simp [noTerminal] at hnt
    | Error e => simp [noTerminal] at hnt

/-- The non-terminal drain arms never change the chat status. -/
theorem pollChatGo_noTerminal_status (msgs : List ChatToken)
    (hnt : noTerminal msgs = true) (s : ChatState) :
    (pollChatGo false s msgs).chat_status = s.chat_status := by
  induction msgs generalizing s with
  | nil => rfl
  | cons m rest ih =>
    cases m with
    | Token t =>
      rw [show pollChatGo false s (.Token t :: rest)
            = pollChatGo false (tokenStep s t) rest from rfl,
          ih (by simpa [noTerminal] using hnt) (tokenStep s t)]
      rfl
    | FirstToken t ttft =>
      rw [show pollChatGo false s (.FirstToken t ttft :: rest)
            = pollChatGo false (firstTokenStep s t ttft) rest from rfl,
          ih (by simpa [noTerminal] using hnt) (firstTokenStep s t ttft)]
      rfl
    | Done m => simp [noTerminal] at hnt
    | Error e => simp [noTerminal] at hnt

/-- C10: when the channel is found disconnected while draining and no
`Done`/`Error` was delivered, the receiver handle is discarded; a
`Generating` status becomes `Done` (never `Error`), any other status is
left alone; the transcript and metrics are exactly those the same drain
would have produced without the disconnection. -/
theorem disconnected_drain_behavior (s : ChatState) (msgs : List ChatToken)
    (hrecv : s.chat_receiver_active = true) (hnt : noTerminal msgs = true) :
    (poll_chat s msgs true).chat_receiver_active = false
  ∧ (poll_chat s msgs true).chat_messages
      = (poll_chat s msgs false).chat_messages
  ∧ (poll_chat s msgs true).chat_metrics
      = (poll_chat s msgs false).chat_metrics
  ∧ (s.chat_status = .Generating → (poll_chat s msgs true).chat_status = .Done)
  ∧ (s.chat_status ≠ .Generating →
       (poll_chat s msgs true).chat_status = s.chat_status)
  ∧ (∀ e, s.chat_status ≠ .Error e →
       (poll_chat s msgs true).chat_status ≠ .Error e) := by
  have hup : poll_chat s msgs true
      = disconnectedStep (pollChatGo false s msgs) := by
    simp [poll_chat, hrecv]
    exact pollChatGo_disconnect_eq msgs hnt s
  have hupf : poll_chat s msgs false = pollChatGo false s msgs := by
    simp [poll_chat, hrecv]
  have hst := pollChatGo_noTerminal_status msgs hnt s
  refine ⟨?_, ?_, ?_, ?_, ?_, ?_⟩
  · rw [hup]; rfl
  · rw [hup, hupf]; rfl
  · rw [hup, hupf]; rfl
  · intro hg
    rw [hup]
    simp [disconnectedStep, hst, hg]
  · intro hg
    rw [hup]
    simp [disconnectedStep, hst, hg]
  · intro e he
    rw [hup]
    by_cases hg : s.chat_status = .Generating <;>
      simp [disconnectedStep, hst, hg, he]

/-- Witness for `disconnected_drain_behavior`: a generating chat whose
worker vanished after one token ends up `Done` with the receiver
discarded. -/
theorem disconnected_drain_behavior_witness :
    (poll_chat chatStateA [.Token "x"] true).chat_receiver_active = false
  ∧ (poll_chat chatStateA [.Token "x"] true).chat_status = .Done :=
  ⟨(disconnected_drain_behavior chatStateA [.Token "x"] rfl rfl).1,
   (disconnected_drain_behavior chatStateA [.Token "x"] rfl rfl).2.2.2.1 rfl⟩

/-! ## Theorems: selection cursor (C4) -/

/-- C4 counterexample: `refresh_ollama_api` replaces the installed-models
list without clamping the cursor.  From a state with two models and the
cursor on index 1, a successful tags call returning an empty list leaves
the cursor at 1 with an empty list — out of bounds and not 0. -/
theorem cursor_out_of_bounds_after_replace :
    (refresh_ollama_api aiStateTwoModels apiRespEmptyTags).1.ollama_models = []
  ∧ (refresh_ollama_api aiStateTwoModels apiRespEmptyTags).1.model_selected = 1
  ∧ (refresh_ollama_api aiStateTwoModels apiRespEmptyTags).1.model_selected
      ≠ 0 :=
  ⟨rfl, rfl, by decide⟩

/-- C4 (amended): `delete_model` always re-establishes the cursor
invariant — afterwards the cursor is 0 when the list is empty and
strictly below the length otherwise — but a wholesale replacement of the
list by the API poller leaves the cursor untouched (so it can be out of
bounds, as the counterexample shows). -/
theorem delete_model_cursor_clamped (s : AiState) (name : String)
    (r : ApiResponses) :
    ((delete_model s name).ollama_models = [] →
       (delete_model s name).model_selected = 0)
  ∧ ((delete_model s name).ollama_models ≠ [] →
       (delete_model s name).model_selected
         < (delete_model s name).ollama_models.length)
  ∧ (refresh_ollama_api s r).1.model_selected = s.model_selected := by
  have hm : (delete_model s name).ollama_models
      = s.ollama_models.filter (fun m => m.name != name) := rfl
  have hsel : (delete_model s name).model_selected
      = if 0 < s.model_selected
           ∧ (s.ollama_models.filter (fun m => m.name != name)).length
               ≤ s.model_selected
        then (s.ollama_models.filter (fun m => m.name != name)).length - 1
        else s.model_selected := rfl
  refine ⟨?_, ?_, ?_⟩
  · intro h
    rw [hm] at h
    rw [hsel, h]
    split_ifs with hc
    · simp
    · simp [h] at hc
      omega
  · intro h
    rw [hm] at h
    have hpos : 0 < (s.ollama_models.filter (fun m => m.name != name)).length :=
      List.length_pos.mpr h
    rw [hsel, hm]
    split_ifs with hc
    · omega
    · rw [Classical.not_and_iff_or_not_not] at hc
      omega
  · obtain ⟨v, tg, ps⟩ := r
    by_cases ha : s.ollama_available = false
    · simp [refresh_ollama_api, ha]
    · cases v <;> cases tg <;> cases ps <;> simp [refresh_ollama_api, ha]

/-- Witness for `delete_model_cursor_clamped`: deleting "phi3" from the
two-model state clamps the cursor back into range. -/
theorem delete_model_cursor_clamped_witness :
    (delete_model aiStateTwoModels "phi3").model_selected
      < (delete_model aiStateTwoModels "phi3").ollama_models.length :=
  (delete_model_cursor_clamped aiStateTwoModels "phi3" apiRespEmptyTags).2.1
    (by decide)

/-! ## Theorems: cached REST poller independence (C5) -/

/-- C5: when the service is not detected, the refresh clears both
registries and unsets the version while issuing no request; when it is
detected, all three GETs are issued, and each of version / installed
models / running models is replaced exactly when its own call succeeded
with a parsed body and is left stale on that call's failure — each clause
holding for every combination of the other calls' outcomes. -/
theorem refresh_independent_updates (s : AiState) (r : ApiResponses) :
    (s.ollama_available = false →
       refresh_ollama_api s r
         = ({ s with ollama_models := [], ollama_running := [],
                     ollama_version := none }, []))
  ∧ (s.ollama_available = true →
       (refresh_ollama_api s r).2 = apiUrls
     ∧ (r.version = none →
          (refresh_ollama_api s r).1.ollama_version = s.ollama_version)
     ∧ (∀ v, r.version = some v →
          (refresh_ollama_api s r).1.ollama_version = some v)
     ∧ (r.tags = none →
          (refresh_ollama_api s r).1.ollama_models = s.ollama_models)
     ∧ (∀ ms, r.tags = some ms →
          (refresh_ollama_api s r).1.ollama_models = ms.getD [])
     ∧ (r.ps = none →
          (refresh_ollama_api s r).1.ollama_running = s.ollama_running)
     ∧ (∀ ms, r.ps = some ms →
          (refresh_ollama_api s r).1.ollama_running = ms.getD [])) := by
  obtain ⟨v, tg, ps⟩ := r
  constructor
  · intro ha
    simp [refresh_ollama_api, ha]
  · intro ha
    cases v <;> cases tg <;> cases ps <;>
      simp [refresh_ollama_api, ha]

/-- Witness for `refresh_independent_updates`: with only the tags call
succeeding (empty list), the version is kept stale and the installed
models are replaced wholesale. -/
theorem refresh_independent_updates_witness :
    (refresh_ollama_api aiStateTwoModels apiRespEmptyTags).1.ollama_version
      = aiStateTwoModels.ollama_version
  ∧ (refresh_ollama_api aiStateTwoModels apiRespEmptyTags).1.ollama_models
      = (some ([] : List OllamaModel)).getD [] :=
  ⟨((refresh_independent_updates aiStateTwoModels apiRespEmptyTags).2
      rfl).2.1 rfl,
   ((refresh_independent_updates aiStateTwoModels apiRespEmptyTags).2
      rfl).2.2.2.2.1 (some []) rfl⟩

/-! ## Theorems: search query percent-encoding (C8) -/

set_option maxRecDepth 4000 in
/-- C8: the per-byte query encoding passes ASCII alphanumerics and
`-` `_` `.` through unchanged, turns a space into `+`, and turns every
other byte into `%` followed by two uppercase hex digits whose value is
the byte; the query `"llama 3:8b"` encodes to `"llama+3%3A8b"`. -/
theorem search_percent_encoding :
    (∀ b : Nat, b < 256 →
       (((Char.ofNat b).isAlphanum = true ∨ Char.ofNat b = '-'
           ∨ Char.ofNat b = '_' ∨ Char.ofNat b = '.') →
          encodeByte b = String.singleton (Char.ofNat b))
     ∧ (b = 32 → encodeByte b = "+")
     ∧ (((Char.ofNat b).isAlphanum = false ∧ Char.ofNat b ≠ '-'
           ∧ Char.ofNat b ≠ '_' ∧ Char.ofNat b ≠ '.' ∧ b ≠ 32) →
          encodeByte b
            = String.mk ['%', hexDigitU (b / 16), hexDigitU (b % 16)]
        ∧ isUpperHexDigit (hexDigitU (b / 16)) = true
        ∧ isUpperHexDigit (hexDigitU (b % 16)) = true
        ∧ 16 * hexVal (hexDigitU (b / 16)) + hexVal (hexDigitU (b % 16)) = b))
  ∧ encodeQuery (strBytes "llama 3:8b") = "llama+3%3A8b" := by
  refine ⟨?_, by decide⟩
  have h : ∀ b : Fin 256,
      (((Char.ofNat b.val).isAlphanum = true ∨ Char.ofNat b.val = '-'
          ∨ Char.ofNat b.val = '_' ∨ Char.ofNat b.val = '.') →
         encodeByte b.val = String.singleton (Char.ofNat b.val))
    ∧ (b.val = 32 → encodeByte b.val = "+")
    ∧ (((Char.ofNat b.val).isAlphanum = false ∧ Char.ofNat b.val ≠ '-'
          ∧ Char.ofNat b.val ≠ '_' ∧ Char.ofNat b.val ≠ '.' ∧ b.val ≠ 32) →
         encodeByte b.val
           = String.mk ['%', hexDigitU (b.val / 16), hexDigitU (b.val % 16)]
       ∧ isUpperHexDigit (hexDigitU (b.val / 16)) = true
       ∧ isUpperHexDigit (hexDigitU (b.val % 16)) = true
       ∧ 16 * hexVal (hexDigitU (b.val / 16)) + hexVal (hexDigitU (b.val % 16))
           = b.val) := by decide
  intro b hb
  exact h ⟨b, hb⟩

/-- Witness for `search_percent_encoding` at byte 58 (`:`), a
non-whitelisted byte encoded as `%3A`. -/
theorem search_percent_encoding_witness :
    encodeByte 58 = String.mk ['%', hexDigitU (58 / 16), hexDigitU (58 % 16)]
  ∧ isUpperHexDigit (hexDigitU (58 / 16)) = true
  ∧ isUpperHexDigit (hexDigitU (58 % 16)) = true
  ∧ 16 * hexVal (hexDigitU (58 / 16)) + hexVal (hexDigitU (58 % 16)) = 58 :=
  (search_percent_encoding.1 58 (by decide)).2.2 (by decide)

/-! ## Theorems: search parser name hygiene and dedup (C9) -/

/-- Any card `extractCard` accepts has a nonempty, slash-free name that
duplicates no earlier result. -/
theorem extractCard_good {block : List Nat} {acc : List SearchResult}
    {r : SearchResult} (h : extractCard block acc = some r) :
    r.name ≠ [] ∧ r.name.contains 47 = false ∧ ∀ a ∈ acc, a.name ≠ r.name := by
  rcases hn : extractName block with _ | name
  · simp only [extractCard, hn] at h
    exact Option.noConfusion h
  · simp only [extractCard, hn] at h
    by_cases h1 : (name.contains 47 || name.isEmpty) = true
    · rw [if_pos h1] at h; exact Option.noConfusion h
    rw [if_neg h1] at h
    by_cases h2 : (acc.any fun a => a.name == name) = true
    · rw [if_pos h2] at h; exact Option.noConfusion h
    rw [if_neg h2] at h
    injection h with h
    subst h
    simp only [Bool.or_eq_true, not_or, Bool.not_eq_true] at h1
    obtain ⟨hslash, hempty⟩ := h1
    refine ⟨?_, hslash, ?_⟩
    · intro hnil
      have hnil' : name = [] := hnil
      rw [hnil'] at hempty
      simp at hempty
    · intro a ha hEq
      have hEq' : a.name = name := hEq
      apply h2
      rw [List.any_eq_true]
      refine ⟨a, ha, ?_⟩
      rw [hEq']
      exact beq_self_eq_true _

/-- The card loop preserves name hygiene and pairwise-distinct names. -/
theorem parseLoop_good (bytes : List Nat) :
    ∀ fuel pos acc,
      (List.Pairwise (fun a b => a.name ≠ b.name) acc
        ∧ ∀ a ∈ acc, a.name ≠ [] ∧ a.name.contains 47 = false) →
      List.Pairwise (fun a b => a.name ≠ b.name) (parseLoop bytes fuel pos acc)
        ∧ ∀ a ∈ parseLoop bytes fuel pos acc,
            a.name ≠ [] ∧ a.name.contains 47 = false := by
  intro fuel
  induction fuel with
  | zero => intro pos acc hacc; simpa [parseLoop] using hacc
  | succ fuel ih =>
    intro pos acc hacc
    rw [parseLoop]
    by_cases hlt : pos < bytes.length
    · rw [if_pos hlt]
      rcases hf : find_bytes bytes liNeedleB pos with _ | li_start
      · simp only [hf]
        exact hacc
      · simp only [hf]
        rcases hx : extractCard (parseBlock bytes li_start) acc with _ | r
        · simp only [hx]
          exact ih _ _ hacc
        · simp only [hx]
          apply ih
          obtain ⟨hne, hns, hdup⟩ := extractCard_good hx
          obtain ⟨hpw, hgood⟩ := hacc
          constructor
          · rw [List.pairwise_append]
            refine ⟨hpw, by simp, ?_⟩
            intro a ha b hb
            simp only [List.mem_singleton] at hb
            subst hb
            exact hdup a ha
          · intro a ha
            rcases List.mem_append.mp ha with hmem | hmem
            · exact hgood a hmem
            · simp only [List.mem_singleton] at hmem
              subst hmem
              exact ⟨hne, hns⟩
    · rw [if_neg hlt]
      exact hacc

/-- C9: the search parser's output never contains two entries with the
same name (later duplicates are dropped) and never an entry whose name is
empty or contains a slash (byte 47); a page carrying two cards with
identical `href="/library/llama3"` anchors yields exactly one result
named "llama3". -/
theorem search_results_unique_names :
    (∀ bytes : List Nat,
        List.Pairwise (fun a b => a.name ≠ b.name) (parse_search_html bytes)
      ∧ ∀ r ∈ parse_search_html bytes,
          r.name ≠ [] ∧ r.name.contains 47 = false)
  ∧ parse_search_html (strBytes twoCardsHtml)
      = [{ name := strBytes "llama3", description := [], sizes := [],
           pulls := [] }] := by
  constructor
  · intro bytes
    exact parseLoop_good bytes (bytes.length + 1) 0 []
      ⟨List.Pairwise.nil, by simp⟩
  · decide

/-- Witness for `search_results_unique_names`: the single entry parsed
from the duplicate-anchor page has the nonempty, slash-free name
"llama3". -/
theorem search_results_unique_names_witness :
    ({ name := strBytes "llama3", description := [], sizes := [],
       pulls := [] } : SearchResult).name ≠ []
  ∧ ({ name := strBytes "llama3", description := [], sizes := [],
       pulls := [] } : SearchResult).name.contains 47 = false :=
  (search_results_unique_names.1 (strBytes twoCardsHtml)).2 _
    (by rw [search_results_unique_names.2]; exact List.mem_singleton.mpr rfl)

end Peakmon
